import Mathlib

/-!
Verification of the multicc profile credential-resolution and
persistent-configuration subsystem, shallowly embedded from the TypeScript
sources (`src/config.ts`, `src/keyring.ts`, `src/auth.ts`, `src/paths.ts`,
`src/commands/profile.ts`, `src/commands/launch.ts`, `src/commands/exec.ts`).

Modelling conventions:
* JSON documents are modelled by `JVal`.  The registry and the OAuth
  credentials file contain no arrays, so `JVal` has no array constructor.
  Objects are association lists in iteration order; values produced by
  `JSON.parse` have no duplicate keys.
* The filesystem is a map from path strings to `Option RawFile`; a stored
  file is either a parseable JSON document or `.malformed` (a byte string
  that `JSON.parse` rejects).  `JSON.stringify`/`JSON.parse` round-tripping
  of a document is the platform guarantee, so file contents are modelled at
  the JSON-value level.
* `path.join` is modelled as `"/"`-separated concatenation; every path the
  store builds joins non-empty segments free of separators and dot
  segments, where the two coincide.
* Effectful TypeScript functions become pure functions over explicit state
  (a filesystem, a secret store, the clock `now`).
-/

namespace Multicc

/-- A JSON value (no arrays: none of the embedded documents use them).
Numbers are epoch-millisecond timestamps and schema tags, modelled as `Int`. -/
inductive JVal where
  | null : JVal
  | bool (b : Bool) : JVal
  | num (n : Int) : JVal
  | str (s : String) : JVal
  | obj (fields : List (String × JVal)) : JVal

/-- A file on disk: either a document `JSON.parse` accepts, or bytes it
rejects. -/
inductive RawFile where
  | malformed : RawFile
  | json (j : JVal) : RawFile

/-- Filesystem contents: path → file (`none` = no file at that path). -/
abbrev FS := String → Option RawFile

/-- JavaScript property lookup `fields["k"]` on a parsed object
(`undefined` when the key is absent). -/
def jLookup (fields : List (String × JVal)) (k : String) : Option JVal :=
  (fields.find? (fun f => f.1 == k)).map (·.2)

/-- Per-entry conversion over a list, failing when any entry fails
(the loader's per-key loop over `Object.keys(profiles)`). -/
def optionTraverse (f : α → Option β) : List α → Option (List β)
  | [] => some []
  | a :: rest =>
      match f a with
      | none => none
      | some b =>
          match optionTraverse f rest with
          | none => none
          | some bs => some (b :: bs)

/-! ## Paths (`src/paths.ts`)

`getMulticcDir` resolves `MULTICC_DIR`/`~/.multicc`; the resolved base
directory is threaded as the parameter `base`. -/

/-- `src/paths.ts` `getConfigPath`. -/
def getConfigPath (base : String) : String := base ++ "/config.json"

/-- `src/paths.ts` `getProfilesDir`. -/
def getProfilesDir (base : String) : String := base ++ "/profiles"

/-- `src/paths.ts` `getProfileDir`. -/
def getProfileDir (base : String) (name : String) : String :=
  base ++ "/profiles/" ++ name

/-! ## Data model (`src/types.ts`) -/

/-- `AuthType` — the closed enumeration of authentication methods. -/
inductive AuthType where
  | oauth | apiKey | bedrock | vertex | foundry
deriving DecidableEq, Repr

/-- The string tag of an `AuthType` as it appears in the registry JSON. -/
def AuthType.tag : AuthType → String
  | .oauth => "oauth"
  | .apiKey => "api-key"
  | .bedrock => "bedrock"
  | .vertex => "vertex"
  | .foundry => "foundry"

/-- Membership in `AUTH_TYPES` (`src/config.ts`), returning the decoded
member: `some` exactly on the five recognized tags. -/
def authTypeOfTag : String → Option AuthType
  | "oauth" => some .oauth
  | "api-key" => some .apiKey
  | "bedrock" => some .bedrock
  | "vertex" => some .vertex
  | "foundry" => some .foundry
  | _ => none

/-- `Profile` (`src/types.ts`).  `envOverrides` is a record, modelled as an
association list in declaration order. -/
structure Profile where
  authType : AuthType
  configDir : String
  description : Option String := none
  createdAt : String
  apiKeyStorage : Option String := none
  envOverrides : Option (List (String × String)) := none
deriving DecidableEq, Repr

/-- `MulticcConfig` (`src/types.ts`).  The TypeScript type fixes
`version : 1`; the loader checks it, so the model carries it as data. -/
structure MulticcConfig where
  version : Int
  activeProfile : String
  profiles : List (String × Profile)
deriving DecidableEq, Repr

/-- `defaultConfig` (`src/config.ts`). -/
def defaultConfig : MulticcConfig :=
  { version := 1, activeProfile := "default", profiles := [] }

/-- Own-entry lookup in the `profiles` mapping (the profile stored under
`name`, if any).  The raw JS property read `config.profiles[name]` also
yields inherited `Object.prototype` members; guards that only test the
read for truthiness are modelled by `profilesMemberTruthy` below. -/
def lookupProfile (config : MulticcConfig) (name : String) : Option Profile :=
  (config.profiles.find? (fun np => np.1 == name)).map (·.2)

/-- The own property names of `Object.prototype`, inherited by every
JSON-parsed object.  Reading any of them yields a function (or, for
`__proto__`, an object) — a truthy value. -/
def OBJECT_PROTOTYPE_MEMBERS : List String :=
  ["constructor", "hasOwnProperty", "isPrototypeOf", "propertyIsEnumerable",
   "toLocaleString", "toString", "valueOf", "__defineGetter__",
   "__defineSetter__", "__lookupGetter__", "__lookupSetter__", "__proto__"]

/-- Truthiness of the JS property read `config.profiles[name]`: an own
entry of the mapping, or an inherited `Object.prototype` member. -/
def profilesMemberTruthy (config : MulticcConfig) (name : String) : Bool :=
  (lookupProfile config name).isSome || OBJECT_PROTOTYPE_MEMBERS.contains name

/-! ## Config Store (`src/config.ts`) -/

/-- The serialized form of a `Profile` (`JSON.stringify` omits properties
whose value is `undefined`, in declaration order). -/
def encodeProfile (p : Profile) : JVal :=
  .obj ([("authType", .str p.authType.tag), ("configDir", .str p.configDir)]
    ++ (match p.description with
        | some d => [("description", JVal.str d)]
        | none => [])
    ++ [("createdAt", .str p.createdAt)]
    ++ (match p.apiKeyStorage with
        | some s => [("apiKeyStorage", JVal.str s)]
        | none => [])
    ++ (match p.envOverrides with
        | some kvs => [("envOverrides", JVal.obj (kvs.map (fun kv => (kv.1, JVal.str kv.2))))]
        | none => []))

/-- The serialized form of the registry, as written by `saveConfig`. -/
def encodeConfig (c : MulticcConfig) : JVal :=
  .obj [("version", .num c.version),
        ("activeProfile", .str c.activeProfile),
        ("profiles", .obj (c.profiles.map (fun np => (np.1, encodeProfile np.2))))]

/-- Reads an optional string-valued property the way the loaded TypeScript
object carries it (the validator does not type-check optional properties;
an ill-typed value is not a validation failure, and the typed model records
it as absent). -/
def jOptStr (o : Option JVal) : Option String :=
  match o with
  | some (.str s) => some s
  | _ => none

/-- Reads an optional `envOverrides` record: present when the property is
an object all of whose values are strings (otherwise treated as absent —
the validator never inspects it). -/
def jOptStrMap (o : Option JVal) : Option (List (String × String)) :=
  match o with
  | some (.obj fs) =>
      optionTraverse (fun kv =>
        match kv.2 with
        | JVal.str s => some (kv.1, s)
        | _ => none) fs
  | _ => none

/-- The profile-entry checks of `validateConfig` (`src/config.ts`):
`authType` is a string in `AUTH_TYPES`, `configDir` and `createdAt` are
strings. -/
def validProfileEntry (j : JVal) : Bool :=
  match j with
  | .obj f =>
      (match jLookup f "authType" with
       | some (.str a) => (authTypeOfTag a).isSome
       | _ => false)
      && (match jLookup f "configDir" with
          | some (.str _) => true
          | _ => false)
      && (match jLookup f "createdAt" with
          | some (.str _) => true
          | _ => false)
  | _ => false

/-- `validateConfig` (`src/config.ts`): version is the number `1`,
`activeProfile` a string, `profiles` a (non-null) object each of whose
entries passes the profile checks. -/
def validateConfig (j : JVal) : Bool :=
  match j with
  | .obj fields =>
      (match jLookup fields "version" with
       | some (.num v) => v == 1
       | _ => false)
      && (match jLookup fields "activeProfile" with
          | some (.str _) => true
          | _ => false)
      && (match jLookup fields "profiles" with
          | some (.obj ps) => ps.all (fun np => validProfileEntry np.2)
          | _ => false)
  | _ => false

/-- Reads one profile object out of the parsed registry.  Succeeds exactly
when `validProfileEntry` holds (the TypeScript loader performs no further
conversion: the parsed object *is* the profile, by structural typing). -/
def decodeProfile (j : JVal) : Option Profile :=
  match j with
  | .obj f =>
      match jLookup f "authType" with
      | some (.str a) =>
          match authTypeOfTag a with
          | some at' =>
              match jLookup f "configDir", jLookup f "createdAt" with
              | some (.str cd), some (.str ca) =>
                  some { authType := at'
                         configDir := cd
                         createdAt := ca
                         description := jOptStr (jLookup f "description")
                         apiKeyStorage := jOptStr (jLookup f "apiKeyStorage")
                         envOverrides := jOptStrMap (jLookup f "envOverrides") }
              | _, _ => none
          | none => none
      | _ => none
  | _ => none

/-- Reads the whole registry out of a parsed document; succeeds exactly
when `validateConfig` holds. -/
def decodeConfig (j : JVal) : Option MulticcConfig :=
  match j with
  | .obj fields =>
      match jLookup fields "version" with
      | some (.num v) =>
          if v == 1 then
            match jLookup fields "activeProfile" with
            | some (.str ap) =>
                match jLookup fields "profiles" with
                | some (.obj ps) =>
                    (optionTraverse
                        (fun np => (decodeProfile np.2).map (fun p => (np.1, p))) ps).map
                      (fun prs => { version := v, activeProfile := ap, profiles := prs })
                | _ => none
            | _ => none
          else none
      | _ => none
  | _ => none

/-- Errors raised by `loadConfig`; both carry the config file path (the
thrown `Error` message embeds it). -/
inductive ConfigError where
  | malformedJson (path : String)
  | invalidStructure (path : String)
deriving DecidableEq, Repr

/-- The file path carried by a `ConfigError`. -/
def ConfigError.path : ConfigError → String
  | .malformedJson p => p
  | .invalidStructure p => p

/-- `loadConfig` (`src/config.ts`) as a function of the registry file's
contents: missing file → default registry; unparseable file → error;
parsed but invalid structure → error; otherwise the parsed registry. -/
def loadConfig (configPath : String) (file : Option RawFile) :
    Except ConfigError MulticcConfig :=
  match file with
  | none => .ok defaultConfig
  | some .malformed => .error (.malformedJson configPath)
  | some (.json j) =>
      match decodeConfig j with
      | some c => .ok c
      | none => .error (.invalidStructure configPath)

/-! ### The write protocol of `saveConfig`

`saveConfig` performs, in order: `mkdirSync(dir, {recursive})`,
`writeFileSync(tempPath, content)`, `chmodSync(tempPath, 0o600)`,
`renameSync(tempPath, configPath)`.  A crash is executing only a prefix of
that operation list. -/

/-- One filesystem operation issued by `saveConfig`. -/
inductive FsOp where
  | mkdirp (dir : String)
  | write (path : String) (content : RawFile)
  | chmod (path : String)
  | rename (src : String) (tgt : String)

/-- Effect of one operation on file contents (`mkdirp` creates directories,
`chmod` changes permissions: neither touches any file's bytes). -/
def applyOp (fs : FS) : FsOp → FS
  | .mkdirp _ => fs
  | .write p c => fun q => if q = p then some c else fs q
  | .chmod _ => fs
  | .rename src tgt => fun q =>
      if q = src then none else if q = tgt then fs src else fs q

/-- Run a list of filesystem operations in order. -/
def runOps (fs : FS) (ops : List FsOp) : FS :=
  ops.foldl applyOp fs

/-- The temp-file path `config.tmp.<hex>` used by `saveConfig`; `suffix` is
the randomized hex suffix. -/
def tempPath (base : String) (suffix : String) : String :=
  base ++ "/config.tmp." ++ suffix

/-- The operation sequence of `saveConfig` (`src/config.ts`). -/
def saveOps (base : String) (c : MulticcConfig) (suffix : String) : List FsOp :=
  [.mkdirp base,
   .write (tempPath base suffix) (.json (encodeConfig c)),
   .chmod (tempPath base suffix),
   .rename (tempPath base suffix) (getConfigPath base)]

/-- `saveConfig` run to completion against a filesystem. -/
def saveConfigFS (base : String) (c : MulticcConfig) (suffix : String) (fs : FS) : FS :=
  runOps fs (saveOps base c suffix)

/-- `loadConfig` reading the registry file from a filesystem. -/
def loadConfigFS (base : String) (fs : FS) : Except ConfigError MulticcConfig :=
  loadConfig (getConfigPath base) (fs (getConfigPath base))

/-! ## Secret Store (`src/keyring.ts`)

The OS keyring (vault) and the per-profile fallback file are the two
backends.  The vault is a map from account name to password; the fallback
files are abstracted as a map from profile name to stored secret (the file
lives at `getProfileDir(name)/.api-key`, a path injective in the name).
`vaultAvailable` is the memoized result of loading the keyring module; a
vault *write* failure takes the same fallback branch as unavailability, so
it is modelled by `vaultAvailable = false`. -/

structure SecretStore where
  vaultAvailable : Bool
  vault : String → Option String
  fallback : String → Option String

/-- Point update of a string-keyed map. -/
def mapSet (m : String → Option String) (k : String) (v : Option String) :
    String → Option String :=
  fun q => if q = k then v else m q

/-- `storeSecret` (`src/keyring.ts`): vault write when the keyring is
available, otherwise the fallback file (created with owner-only
permissions). -/
def storeSecret (profileName secret : String) (st : SecretStore) : SecretStore :=
  if st.vaultAvailable then
    { st with vault := mapSet st.vault profileName (some secret) }
  else
    { st with fallback := mapSet st.fallback profileName (some secret) }

/-- `retrieveSecret` (`src/keyring.ts`): vault lookup first (a missing
entry or keyring error falls through, it does not abort), then the
fallback file, else absent. -/
def retrieveSecret (profileName : String) (st : SecretStore) : Option String :=
  match (if st.vaultAvailable then st.vault profileName else none) with
  | some password => some password
  | none => st.fallback profileName

/-- `deleteSecret` (`src/keyring.ts`): best-effort vault delete (only
possible when the keyring loaded; not-found ignored) and, unconditionally,
best-effort fallback-file delete. -/
def deleteSecret (profileName : String) (st : SecretStore) : SecretStore :=
  { st with
    vault := if st.vaultAvailable then mapSet st.vault profileName none else st.vault
    fallback := mapSet st.fallback profileName none }

/-! ## Credential Resolver (`src/auth.ts`) -/

/-- The parsed OAuth credentials (`OAuthCredentials` in `src/auth.ts`);
`expiresAt` is an epoch-millisecond timestamp. -/
structure OAuthCredentials where
  accessToken : String
  refreshToken : String
  expiresAt : Int
deriving DecidableEq, Repr

/-- `readOAuthCredentials` (`src/auth.ts`): reads
`configDir/.credentials.json`; any read or parse failure yields `none`.
`obj["claudeAiOauth"] ?? obj["oauthAccount"]` takes the first of the two
properties that is neither absent nor `null`; that value must be a
non-null object carrying a string `accessToken`, a string `refreshToken`
and a numeric `expiresAt`. -/
def readOAuthCredentials (fs : FS) (configDir : String) : Option OAuthCredentials :=
  match fs (configDir ++ "/.credentials.json") with
  | none => none
  | some .malformed => none
  | some (.json parsed) =>
      match parsed with
      | .obj obj =>
          let oauthData : Option JVal :=
            match jLookup obj "claudeAiOauth" with
            | some .null => jLookup obj "oauthAccount"
            | some v => some v
            | none => jLookup obj "oauthAccount"
          match oauthData with
          | some (.obj creds) =>
              match jLookup creds "accessToken", jLookup creds "refreshToken",
                    jLookup creds "expiresAt" with
              | some (.str a), some (.str r), some (.num e) => some ⟨a, r, e⟩
              | _, _, _ => none
          | _ => none
      | _ => none

/-- The `method` field of a credential status. -/
inductive AuthMethod where
  | oauth | apiKey | envVar | bedrock | vertex | foundry
deriving DecidableEq, Repr

/-- `CredentialStatus` (`src/auth.ts`); the optional `email` field is never
populated by `getCredentialStatus` and is omitted. -/
structure CredentialStatus where
  authenticated : Bool
  authType : AuthType
  expiresAt : Option Int := none
  expired : Option Bool := none
  method : AuthMethod
deriving DecidableEq, Repr

/-- Lookup in a profile's `envOverrides` record
(`profile.envOverrides?.[k]`). -/
def envOverrideGet (profile : Profile) (k : String) : Option String :=
  ((profile.envOverrides.getD []).find? (fun kv => kv.1 == k)).map (·.2)

/-- JavaScript string truthiness of an optional string: `undefined` and
`""` are falsy. -/
def truthy (o : Option String) : Bool :=
  match o with
  | some s => !(s == "")
  | none => false

/-- The keyring account name `getCredentialStatus` derives for an api-key
profile: `profile.configDir.split(path.sep).pop() ?? ""`, i.e. the last
`"/"`-separated component of `configDir`. -/
def lastComponentAux : List Char → List Char → List Char
  | acc, [] => acc
  | acc, c :: rest =>
      if c = '/' then lastComponentAux [] rest
      else lastComponentAux (acc ++ [c]) rest

/-- Last `"/"`-separated component of a string (`split("/").pop() ?? ""`). -/
def lastComponent (s : String) : String :=
  ⟨lastComponentAux [] s.data⟩

/-- `getCredentialStatus` (`src/auth.ts`), a pure function of the profile,
the credentials filesystem, the secret store and the clock `now`
(`Date.now()`). -/
def getCredentialStatus (fs : FS) (st : SecretStore) (now : Int)
    (profile : Profile) : CredentialStatus :=
  match profile.authType with
  | .oauth =>
      match readOAuthCredentials fs profile.configDir with
      | none => { authenticated := false, authType := .oauth, method := .oauth }
      | some creds =>
          let expired := creds.expiresAt < now
          { authenticated := !expired
            authType := .oauth
            expiresAt := some creds.expiresAt
            expired := some expired
            method := .oauth }
  | .apiKey =>
      -- `if (profile.envOverrides?.["ANTHROPIC_API_KEY"])` — truthiness
      if truthy (envOverrideGet profile "ANTHROPIC_API_KEY") then
        { authenticated := true, authType := .apiKey, method := .envVar }
      else if truthy (retrieveSecret (lastComponent profile.configDir) st) then
        { authenticated := true, authType := .apiKey, method := .apiKey }
      else
        { authenticated := false, authType := .apiKey, method := .apiKey }
  | .bedrock =>
      { authenticated := (envOverrideGet profile "AWS_ACCESS_KEY_ID").isSome
          || (envOverrideGet profile "AWS_PROFILE").isSome
        authType := .bedrock, method := .bedrock }
  | .vertex =>
      { authenticated := (envOverrideGet profile "GOOGLE_APPLICATION_CREDENTIALS").isSome
          || (envOverrideGet profile "CLOUD_ML_REGION").isSome
        authType := .vertex, method := .vertex }
  | .foundry =>
      { authenticated := (envOverrideGet profile "FOUNDRY_API_KEY").isSome
        authType := .foundry, method := .foundry }

/-! ## Environment Composer (`src/auth.ts` `buildProfileEnv`)

The composed environment is a record whose values are strings or the unset
sentinel `undefined`.  It is modelled as the list of assignments in
program order; `envGet` returns the final value of a key (`some none` =
present with the unset sentinel, `none` = never assigned). -/

abbrev EnvMap := List (String × Option String)

/-- Final value of a key after all assignments (later assignments win). -/
def envGet (m : EnvMap) (k : String) : Option (Option String) :=
  (m.reverse.find? (fun p => p.1 == k)).map (·.2)

/-- `CLAUDE_AUTH_ENV_VARS` (`src/auth.ts`): the fixed list of
auth-mode-selector variables sanitized before profile-specific settings. -/
def CLAUDE_AUTH_ENV_VARS : List String :=
  ["CLAUDE_CODE_USE_BEDROCK",
   "CLAUDE_CODE_USE_VERTEX",
   "CLAUDE_CODE_USE_FOUNDRY",
   "ANTHROPIC_API_KEY",
   "ANTHROPIC_BASE_URL",
   "ANTHROPIC_FOUNDRY_BASE_URL",
   "ANTHROPIC_FOUNDRY_RESOURCE"]

/-- One JS property assignment `env[k] = v` on the plain object `env`: for
the key `"__proto__"` the assignment invokes the inherited
`Object.prototype.__proto__` accessor, which ignores a string/undefined
value and creates no own entry — a silent no-op; every other key becomes
(or overwrites) an own entry. -/
def envAssign (env : EnvMap) (k : String) (v : Option String) : EnvMap :=
  if k = "__proto__" then env else env ++ [(k, v)]

/-- The `for (const [key, value] of Object.entries(profile.envOverrides))`
loop of `buildProfileEnv`, one `envAssign` per entry in order. -/
def applyEnvOverrides (env : EnvMap) : List (String × String) → EnvMap
  | [] => env
  | kv :: rest => applyEnvOverrides (envAssign env kv.1 (some kv.2)) rest

/-- `buildProfileEnv` (`src/auth.ts`): isolation variable, then unset every
auth-mode selector, then the auth-type-specific variables (the api-key
branch sets the key only when the retrieved secret is truthy), then the
profile's `envOverrides`, last.  All keys before the override loop are
fixed literals (never `"__proto__"`), so those assignments are plain list
entries; the user-controlled override keys go through `envAssign`. -/
def buildProfileEnv (st : SecretStore) (profile : Profile)
    (profileName : String) : EnvMap :=
  applyEnvOverrides
    ([("CLAUDE_CONFIG_DIR", some profile.configDir)]
     ++ CLAUDE_AUTH_ENV_VARS.map (fun k => (k, (none : Option String)))
     ++ (match profile.authType with
         | .apiKey =>
             -- `const secret = await retrieveSecret(profileName); if (secret) ...`
             match retrieveSecret profileName st with
             | some s => if s = "" then [] else [("ANTHROPIC_API_KEY", some s)]
             | none => []
         | .bedrock => [("CLAUDE_CODE_USE_BEDROCK", some "1")]
         | .vertex => [("CLAUDE_CODE_USE_VERTEX", some "1")]
         | .foundry => [("CLAUDE_CODE_USE_FOUNDRY", some "1")]
         | .oauth => []))
    (profile.envOverrides.getD [])

/-! ## Argument Disambiguator (`src/commands/launch.ts`,
`src/commands/exec.ts`)

The CLI passes the handler the first positional (`name`, when present) and
the full positional list `rawArgs` (whose head is that same token).  The
pure profile/passthrough resolution of each handler is embedded; the
subsequent spawn is out of scope. -/

/-- Strip one leading `"--"` separator from the passthrough list. -/
def stripSeparator (args : List String) : List String :=
  match args with
  | a :: rest => if a = "--" then rest else args
  | [] => []

/-- The disambiguation of `handleLaunch` (`src/commands/launch.ts`): the
guard `name && config.profiles[name]` tests the token's truthiness (an
empty token is falsy) and the truthiness of the raw property read (own
entry *or* inherited `Object.prototype` member); when it holds, the token
is the profile and the rest is passthrough; in either else-branch the
active profile gets the entire original list. -/
def launchResolve (config : MulticcConfig) (name : Option String)
    (rawArgs : List String) : String × List String :=
  match name with
  | some n =>
      if !(n == "") && profilesMemberTruthy config n then
        (n, stripSeparator (rawArgs.drop 1))
      else (config.activeProfile, stripSeparator rawArgs)
  | none => (config.activeProfile, stripSeparator rawArgs)

/-- The disambiguation of `handleExec` (`src/commands/exec.ts`), same rule
(and the same prototype-chain property read) as `handleLaunch`. -/
def execResolve (config : MulticcConfig) (name : Option String)
    (rawArgs : List String) : String × List String :=
  match name with
  | some n =>
      if !(n == "") && profilesMemberTruthy config n then
        (n, stripSeparator (rawArgs.drop 1))
      else (config.activeProfile, stripSeparator rawArgs)
  | none => (config.activeProfile, stripSeparator rawArgs)

/-! ## Profile commands (`src/commands/profile.ts`)

The registry transformation of each handler, with user errors as `Except`
(`.error` = the handler reported and exited non-zero before `saveConfig`);
prompting, display and directory creation are out of scope. -/

/-- User-input errors of the profile command handlers. -/
inductive CliError where
  | invalidName (msg : String)
  | alreadyExists (name : String)
  | notFound (name : String)
  | lastProfile
deriving DecidableEq, Repr

/-- Does a character match the regex class `[a-zA-Z0-9]`? -/
def isNameStartChar (c : Char) : Bool := c.isAlpha || c.isDigit

/-- Does a character match the regex class `[a-zA-Z0-9-]`? -/
def isNameChar (c : Char) : Bool := isNameStartChar c || c == '-'

/-- `NAME_PATTERN.test(name)` for `^[a-zA-Z0-9][a-zA-Z0-9-]*$`. -/
def namePatternTest (name : String) : Bool :=
  match name.data with
  | [] => false
  | c :: rest => isNameStartChar c && rest.all isNameChar

/-- `MAX_NAME_LENGTH` (`src/commands/profile.ts`). -/
def MAX_NAME_LENGTH : Nat := 32

/-- `validateProfileName` (`src/commands/profile.ts`): `none` = valid,
`some msg` = the reported error. -/
def validateProfileName (name : String) : Option String :=
  if name.length = 0 then
    some "Profile name cannot be empty."
  else if name.length > MAX_NAME_LENGTH then
    some "Profile name must be 32 characters or less."
  else if !(namePatternTest name) then
    some "Profile name must be alphanumeric with hyphens only (no spaces or special characters). Must start with a letter or number."
  else
    none

/-- The registry transformation of `handleCreate`
(`src/commands/profile.ts`): validate the name, reject duplicates, insert
the new profile (its `configDir` derived by `getProfileDir`), and make it
active when it is the only profile after insertion. -/
def handleCreateCore (base : String) (config : MulticcConfig) (name : String)
    (authType : AuthType) (description : Option String) (createdAt : String) :
    Except CliError MulticcConfig :=
  match validateProfileName name with
  | some msg => .error (.invalidName msg)
  | none =>
      -- `if (config.profiles[name])`: a truthy property read, so inherited
      -- `Object.prototype` member names are (spuriously) rejected too
      if profilesMemberTruthy config name then .error (.alreadyExists name)
      else
        let profileDir := getProfileDir base name
        let profiles' := config.profiles ++
          [(name, { authType := authType, configDir := profileDir,
                    description := description, createdAt := createdAt })]
        let active' := if profiles'.length = 1 then name else config.activeProfile
        .ok { version := config.version, activeProfile := active',
              profiles := profiles' }

/-- The registry transformation of `handleSwitch`
(`src/commands/profile.ts`): the existence check
`if (!config.profiles[name])` is a truthy property read, so besides
existing keys it also accepts the inherited `Object.prototype` member
names, and then persists them as `activeProfile`. -/
def handleSwitchCore (config : MulticcConfig) (name : String) :
    Except CliError MulticcConfig :=
  if !(profilesMemberTruthy config name) then .error (.notFound name)
  else .ok { config with activeProfile := name }

/-- The registry transformation of `handleDelete`
(`src/commands/profile.ts`): the same truthy existence check, then the
last remaining profile is rejected; `delete config.profiles[name]` removes
the own entry (a no-op for inherited names); deleting the active profile
reassigns `activeProfile` to the first remaining key. -/
def handleDeleteCore (config : MulticcConfig) (name : String) :
    Except CliError MulticcConfig :=
  if !(profilesMemberTruthy config name) then .error (.notFound name)
  else if config.profiles.length ≤ 1 then .error .lastProfile
  else
    let profiles' := config.profiles.filter (fun np => !(np.1 == name))
    let active' :=
      if config.activeProfile = name then ((profiles'.map Prod.fst).headD "")
      else config.activeProfile
    .ok { config with activeProfile := active', profiles := profiles' }

/-! ## Specification-side readings of the OAuth credentials file

These definitions follow the spec's words (not the code) and are compared
with `readOAuthCredentials` in the C4 theorems. -/

/-- Validity of a credentials document under one fixed top-level key, as
the claim words it: the document is an object whose value at `key` is an
object carrying a string `accessToken`, a string `refreshToken` and a
numeric `expiresAt`. -/
def specOAuthValidUnder (j : JVal) (key : String) : Option OAuthCredentials :=
  match j with
  | .obj fields =>
      match jLookup fields key with
      | some (.obj creds) =>
          match jLookup creds "accessToken", jLookup creds "refreshToken",
                jLookup creds "expiresAt" with
          | some (.str a), some (.str r), some (.num e) => some ⟨a, r, e⟩
          | _, _, _ => none
      | _ => none
  | _ => none

/-- The ordered list of recognized top-level keys for the OAuth payload
(§9: candidates tried in sequence). -/
def OAUTH_KEY_CANDIDATES : List String := ["claudeAiOauth", "oauthAccount"]

/-- First candidate value that is present and non-null (the nullish
coalescing of the amended claim). -/
def firstPresentNonNull : List (Option JVal) → Option JVal
  | [] => none
  | none :: rest => firstPresentNonNull rest
  | some .null :: rest => firstPresentNonNull rest
  | some v :: _ => some v

/-- The amended claim's reading of the credentials file: parse, take the
first present non-null candidate key in order, and require the three typed
fields on that candidate alone. -/
def specReadOAuth (fs : FS) (configDir : String) : Option OAuthCredentials :=
  match fs (configDir ++ "/.credentials.json") with
  | some (.json (.obj fields)) =>
      match firstPresentNonNull (OAUTH_KEY_CANDIDATES.map (jLookup fields)) with
      | some (.obj creds) =>
          match jLookup creds "accessToken", jLookup creds "refreshToken",
                jLookup creds "expiresAt" with
          | some (.str a), some (.str r), some (.num e) => some ⟨a, r, e⟩
          | _, _, _ => none
      | _ => none
  | _ => none

/-- The steady-state invariant of §3: `activeProfile` references an
existing key of the `profiles` mapping. -/
def ActiveRefersExisting (c : MulticcConfig) : Prop :=
  (lookupProfile c c.activeProfile).isSome

/-! ## Concrete fixtures (used by witnesses) -/

/-- A two-profile registry exercising the optional profile fields. -/
def sampleRegistry : MulticcConfig :=
  { version := 1
    activeProfile := "work"
    profiles :=
      [("work",
        { authType := .oauth
          configDir := "/home/u/.multicc/profiles/work"
          description := some "work account"
          createdAt := "2024-01-01T00:00:00.000Z"
          envOverrides := some [("ANTHROPIC_BASE_URL", "https://example.test")] }),
       ("personal",
        { authType := .apiKey
          configDir := "/home/u/.multicc/profiles/personal"
          createdAt := "2024-02-02T00:00:00.000Z"
          apiKeyStorage := some "keyring" })] }

/-- An api-key profile with no overrides, as created for name
`"personal"`. -/
def apiKeyProfile : Profile :=
  { authType := .apiKey
    configDir := "/home/u/.multicc/profiles/personal"
    createdAt := "2024-02-02T00:00:00.000Z" }

/-- `apiKeyProfile` with user env overrides, the first overriding the
derived provider-key variable. -/
def overrideProfile : Profile :=
  { apiKeyProfile with
    envOverrides := some [("ANTHROPIC_API_KEY", "custom-key"),
                          ("ANTHROPIC_BASE_URL", "https://proxy.test")] }

/-- A store whose vault holds `sk-ant-XYZ` for profile `personal`. -/
def vaultStore : SecretStore :=
  { vaultAvailable := true
    vault := fun n => if n = "personal" then some "sk-ant-XYZ" else none
    fallback := fun _ => none }

/-- A store with no secrets and no vault. -/
def emptyStore : SecretStore :=
  { vaultAvailable := false, vault := fun _ => none, fallback := fun _ => none }

/-- A store whose fallback file for `personal` holds the empty string. -/
def emptySecretStore : SecretStore :=
  { vaultAvailable := false
    vault := fun _ => none
    fallback := fun n => if n = "personal" then some "" else none }

/-- A registry with a single profile (deletion of it must be refused). -/
def soloRegistry : MulticcConfig :=
  { version := 1
    activeProfile := "personal"
    profiles := [("personal", apiKeyProfile)] }

/-- The registry obtained from `sampleRegistry` by deleting the active
profile `work`: the remaining key is reassigned as active. -/
def sampleAfterDelete : MulticcConfig :=
  { version := 1
    activeProfile := "personal"
    profiles :=
      [("personal",
        { authType := .apiKey
          configDir := "/home/u/.multicc/profiles/personal"
          createdAt := "2024-02-02T00:00:00.000Z"
          apiKeyStorage := some "keyring" })] }

/-- An oauth profile whose state directory is the `work` profile dir. -/
def oauthProfile : Profile :=
  { authType := .oauth
    configDir := "/home/u/.multicc/profiles/work"
    createdAt := "2024-01-01T00:00:00.000Z" }

/-- A credentials document whose `claudeAiOauth` value is a (non-null)
object lacking the required fields, while `oauthAccount` holds a fully
valid credential object with expiry 2000. -/
def mixedCredsFile : JVal :=
  .obj [("claudeAiOauth", .obj [("accessToken", .num 0)]),
        ("oauthAccount",
          .obj [("accessToken", .str "at"), ("refreshToken", .str "rt"),
                ("expiresAt", .num 2000)])]

/-- A filesystem holding `mixedCredsFile` at `oauthProfile`'s credentials
path. -/
def mixedCredsFS : FS := fun p =>
  if p = "/home/u/.multicc/profiles/work/.credentials.json" then
    some (.json mixedCredsFile)
  else none

/-- A filesystem holding a valid `claudeAiOauth` credential object with
expiry 2000 at `oauthProfile`'s credentials path. -/
def validCredsFS : FS := fun p =>
  if p = "/home/u/.multicc/profiles/work/.credentials.json" then
    some (.json (.obj [("claudeAiOauth",
      .obj [("accessToken", .str "at"), ("refreshToken", .str "rt"),
            ("expiresAt", .num 2000)])]))
  else none

/-- An api-key profile stored in the registry under the key `bar` but whose
`configDir` was hand-edited to an external directory whose last path
component is `foo`. -/
def renamedDirProfile : Profile :=
  { authType := .apiKey
    configDir := "/external/dirs/foo"
    createdAt := "2024-03-03T00:00:00.000Z" }

/-- A registry that passes `validateConfig` and associates the key `bar`
with `renamedDirProfile`. -/
def renamedRegistry : MulticcConfig :=
  { version := 1
    activeProfile := "bar"
    profiles := [("bar", renamedDirProfile)] }

/-- A store whose vault holds a secret for the registry name `bar`. -/
def barStore : SecretStore :=
  { vaultAvailable := true
    vault := fun n => if n = "bar" then some "sk-ant-XYZ" else none
    fallback := fun _ => none }

/-- `apiKeyProfile` with an explicit but empty `ANTHROPIC_API_KEY`
override. -/
def emptyOverrideProfile : Profile :=
  { apiKeyProfile with envOverrides := some [("ANTHROPIC_API_KEY", "")] }

/-- An oauth profile carrying an `envOverrides` entry keyed `__proto__`
(accepted by `validateConfig`, an own key after `JSON.parse`). -/
def protoOverrideProfile : Profile :=
  { authType := .oauth
    configDir := "/home/u/.multicc/profiles/work"
    createdAt := "2024-01-01T00:00:00.000Z"
    envOverrides := some [("__proto__", "x")] }

/-! ## Basic lemmas -/

theorem data_append (a b : String) : (a ++ b).data = a.data ++ b.data := rfl

theorem string_eq_of_data_eq {a b : String} (h : a.data = b.data) : a = b := by
  cases a; cases b; exact congrArg String.mk h

theorem string_append_right_inj (a : String) {b c : String}
    (h : a ++ b = a ++ c) : b = c := by
  have hd : a.data ++ b.data = a.data ++ c.data := congrArg String.data h
  exact string_eq_of_data_eq (List.append_cancel_left hd)

/-- The temp file of `saveConfig` never aliases the registry file, for any
randomized suffix. -/
theorem tempPath_ne_configPath (base suffix : String) :
    tempPath base suffix ≠ getConfigPath base := by
  intro h
  have h1 : base ++ ("/config.tmp." ++ suffix) = base ++ "/config.json" := by
    calc base ++ ("/config.tmp." ++ suffix)
        = base ++ "/config.tmp." ++ suffix := by
          exact string_eq_of_data_eq (by simp [data_append])
      _ = base ++ "/config.json" := h
  have h2 : "/config.tmp." ++ suffix = "/config.json" :=
    string_append_right_inj base h1
  have h3 : ("/config.tmp.").data ++ suffix.data =
      ("/config.json").data ++ ([] : List Char) := by
    simpa [data_append] using congrArg String.data h2
  have h4 := List.append_inj h3 (by decide)
  exact absurd h4.1 (by decide)

/-- Distinct random suffixes give distinct temp paths (concurrent saves do
not collide). -/
theorem tempPath_injective (base : String) {s s' : String}
    (h : tempPath base s = tempPath base s') : s = s' :=
  string_append_right_inj (base ++ "/config.tmp.") h

/-- The temp file lives in the config directory: its path is the directory,
a separator, and the file name `config.tmp.<suffix>`. -/
theorem tempPath_in_dir (base suffix : String) :
    (tempPath base suffix).data =
      base.data ++ '/' :: ("config.tmp." ++ suffix).data := by
  simp [tempPath, data_append]

/-! ## Save/load lemmas -/

/-- A completed save leaves the new registry at the registry path. -/
theorem save_writes_config (base : String) (c : MulticcConfig) (suffix : String)
    (fs : FS) :
    saveConfigFS base c suffix fs (getConfigPath base) =
      some (.json (encodeConfig c)) := by
  have hne : getConfigPath base ≠ tempPath base suffix :=
    Ne.symm (tempPath_ne_configPath base suffix)
  simp [saveConfigFS, runOps, saveOps, applyOp, hne]

/-- Any crash point strictly before the rename (a prefix of at most the
first three operations) leaves the registry path's contents untouched. -/
theorem save_prefix_preserves (base : String) (c : MulticcConfig)
    (suffix : String) (fs : FS) (k : Nat) (hk : k ≤ 3) :
    runOps fs ((saveOps base c suffix).take k) (getConfigPath base) =
      fs (getConfigPath base) := by
  have hne : getConfigPath base ≠ tempPath base suffix :=
    Ne.symm (tempPath_ne_configPath base suffix)
  interval_cases k <;> simp [runOps, saveOps, applyOp, hne]

theorem authTypeOfTag_tag (a : AuthType) : authTypeOfTag a.tag = some a := by
  cases a <;> rfl

theorem traverseStr_encode (kvs : List (String × String)) :
    optionTraverse (fun kv =>
        match kv.2 with
        | JVal.str s => some (kv.1, s)
        | _ => none)
      (kvs.map (fun kv => (kv.1, JVal.str kv.2))) = some kvs := by
  induction kvs with
  | nil => rfl
  | cons kv rest ih => simp [optionTraverse, ih]

theorem jOptStrMap_encode (kvs : List (String × String)) :
    jOptStrMap (some (.obj (kvs.map (fun kv => (kv.1, JVal.str kv.2))))) =
      some kvs := by
  simp [jOptStrMap, traverseStr_encode]

theorem decodeProfile_encodeProfile (p : Profile) :
    decodeProfile (encodeProfile p) = some p := by
  obtain ⟨at', cd, desc, ca, aks, env⟩ := p
  cases at' <;> cases desc <;> cases aks <;> cases env <;>
    simp [decodeProfile, encodeProfile, jLookup, List.find?, jOptStr,
      jOptStrMap, traverseStr_encode, authTypeOfTag_tag]

theorem traverse_decode_encode (ps : List (String × Profile)) :
    optionTraverse (fun np => (decodeProfile np.2).map (fun p => (np.1, p)))
      (ps.map (fun np => (np.1, encodeProfile np.2))) = some ps := by
  induction ps with
  | nil => rfl
  | cons np rest ih => simp [optionTraverse, decodeProfile_encodeProfile, ih]

theorem decodeConfig_encodeConfig (c : MulticcConfig) (h : c.version = 1) :
    decodeConfig (encodeConfig c) = some c := by
  obtain ⟨v, ap, ps⟩ := c
  simp only [MulticcConfig.mk.injEq] at h ⊢
  subst h
  simp [decodeConfig, encodeConfig, jLookup, List.find?, traverse_decode_encode]

/-! ## Validator/decoder agreement -/

theorem optionTraverse_isSome (f : α → Option β) (l : List α) :
    (optionTraverse f l).isSome = l.all (fun x => (f x).isSome) := by
  induction l with
  | nil => rfl
  | cons a rest ih =>
      cases h : f a with
      | none => simp [optionTraverse, h]
      | some b =>
          cases h2 : optionTraverse f rest with
          | none => simp_all [optionTraverse]
          | some bs => simp_all [optionTraverse]

theorem decodeProfile_isSome (j : JVal) :
    (decodeProfile j).isSome = validProfileEntry j := by
  unfold decodeProfile validProfileEntry
  repeat' split <;> try simp_all

theorem decodeConfig_isSome (j : JVal) :
    (decodeConfig j).isSome = validateConfig j := by
  unfold decodeConfig validateConfig
  repeat' split <;> try simp_all [optionTraverse_isSome, decodeProfile_isSome]

/-! ## Claim theorems -/

/-- C1: for every well-formed registry R (version 1; typing of
`activeProfile`, the profile entries' `authType`/`configDir`/`createdAt`
and the optional fields is enforced by the model's types), saving R with
`saveConfig` and then loading with `loadConfig` returns R. -/
theorem save_load_roundtrip (base suffix : String) (c : MulticcConfig)
    (fs : FS) (h : c.version = 1) :
    loadConfigFS base (saveConfigFS base c suffix fs) = .ok c := by
  have hw := save_writes_config base c suffix fs
  simp [loadConfigFS, hw, loadConfig, decodeConfig_encodeConfig c h]

/-- Witness for C1 at a concrete two-profile registry. -/
theorem save_load_roundtrip_witness :
    sampleRegistry.version = 1 ∧
    loadConfigFS "/home/u/.multicc"
        (saveConfigFS "/home/u/.multicc" sampleRegistry "3f9a0b2c"
          (fun _ => none)) = .ok sampleRegistry :=
  ⟨rfl, save_load_roundtrip "/home/u/.multicc" "3f9a0b2c" sampleRegistry
    (fun _ => none) rfl⟩

/-- C2: `saveConfig` writes to a uniquely named temp file inside the config
directory (distinct suffixes give distinct paths, and the temp path never
aliases the registry path); executing any prefix of its operations that
stops before the final rename leaves the registry path's contents
identical; only the completed run (whose last operation is the rename)
makes the new registry visible at the registry path. -/
theorem saveConfig_atomic (base : String) (c : MulticcConfig)
    (suffix s' : String) (fs : FS) (k : Nat) :
    (k ≤ 3 → runOps fs ((saveOps base c suffix).take k) (getConfigPath base) =
        fs (getConfigPath base))
    ∧ saveConfigFS base c suffix fs (getConfigPath base) =
        some (.json (encodeConfig c))
    ∧ (saveOps base c suffix).length = 4
    ∧ (saveOps base c suffix).getLast? =
        some (.rename (tempPath base suffix) (getConfigPath base))
    ∧ (suffix ≠ s' → tempPath base suffix ≠ tempPath base s')
    ∧ tempPath base suffix ≠ getConfigPath base
    ∧ (tempPath base suffix).data =
        base.data ++ '/' :: ("config.tmp." ++ suffix).data := by
  refine ⟨fun hk => save_prefix_preserves base c suffix fs k hk,
    save_writes_config base c suffix fs, rfl, rfl,
    fun hs heq => hs (tempPath_injective base heq),
    tempPath_ne_configPath base suffix,
    tempPath_in_dir base suffix⟩

/-- Witness for C2: a crash after the temp write (prefix of length 2)
leaves the registry path unchanged, and distinct suffixes do not collide. -/
theorem saveConfig_atomic_witness :
    runOps (fun _ => none)
        ((saveOps "/home/u/.multicc" defaultConfig "3f9a0b2c").take 2)
        (getConfigPath "/home/u/.multicc") = none
    ∧ saveConfigFS "/home/u/.multicc" defaultConfig "3f9a0b2c" (fun _ => none)
        (getConfigPath "/home/u/.multicc") =
        some (.json (encodeConfig defaultConfig))
    ∧ tempPath "/home/u/.multicc" "3f9a0b2c" ≠ tempPath "/home/u/.multicc" "ab12cd34"
    ∧ tempPath "/home/u/.multicc" "3f9a0b2c" ≠ getConfigPath "/home/u/.multicc" := by
  have h := saveConfig_atomic "/home/u/.multicc" defaultConfig "3f9a0b2c"
    "ab12cd34" (fun _ => none) 2
  exact ⟨h.1 (by decide), h.2.1, h.2.2.2.2.1 (by decide), h.2.2.2.2.2.1⟩

/-- C7: `loadConfig` returns the default registry
`{version := 1, activeProfile := "default", profiles := {}}` when the
registry file does not exist; when the file exists but is unparseable JSON
or fails `validateConfig`, it fails with an error carrying the file path
(the loader performs no writes: it is a pure function of the file's
contents, so the file is neither modified nor discarded). -/
theorem loadConfig_default_and_corrupt (path : String) (j : JVal) :
    defaultConfig = { version := 1, activeProfile := "default", profiles := [] }
    ∧ loadConfig path none = .ok defaultConfig
    ∧ (loadConfig path (some .malformed) = .error (.malformedJson path)
        ∧ (ConfigError.malformedJson path).path = path)
    ∧ (validateConfig j = false →
        loadConfig path (some (.json j)) = .error (.invalidStructure path)
        ∧ (ConfigError.invalidStructure path).path = path)
    ∧ (validateConfig j = true →
        ∃ c, loadConfig path (some (.json j)) = .ok c) := by
  refine ⟨rfl, rfl, ⟨rfl, rfl⟩, fun hv => ?_, fun hv => ?_⟩
  · have hd : decodeConfig j = none := by
      have := decodeConfig_isSome j
      rw [hv] at this
      exact Option.not_isSome_iff_eq_none.mp (by simp [this])
    exact ⟨by simp [loadConfig, hd], rfl⟩
  · have hd : (decodeConfig j).isSome := by rw [decodeConfig_isSome j, hv]
    obtain ⟨c, hc⟩ := Option.isSome_iff_exists.mp hd
    exact ⟨c, by simp [loadConfig, hc]⟩

/-- Witness for C7: a structurally invalid document (a bare number, and a
registry whose `version` is the string `"1"`) errors with the path; a valid
document loads. -/
theorem loadConfig_default_and_corrupt_witness :
    (validateConfig (.num 3) = false
      ∧ loadConfig "/home/u/.multicc/config.json" (some (.json (.num 3))) =
          .error (.invalidStructure "/home/u/.multicc/config.json"))
    ∧ (validateConfig (encodeConfig sampleRegistry) = true
      ∧ ∃ c, loadConfig "/home/u/.multicc/config.json"
          (some (.json (encodeConfig sampleRegistry))) = .ok c) := by
  have h1 := loadConfig_default_and_corrupt "/home/u/.multicc/config.json" (.num 3)
  have h2 := loadConfig_default_and_corrupt "/home/u/.multicc/config.json"
    (encodeConfig sampleRegistry)
  exact ⟨⟨by decide, (h1.2.2.2.1 (by decide)).1⟩,
    ⟨by decide, h2.2.2.2.2 (by decide)⟩⟩

/-- C8: a secret stored for a name is retrieved back, with the vault
available (vault path) and with the vault unavailable (fallback-file
path); after a delete the secret is absent, because the delete removes the
fallback file unconditionally (regardless of the vault's availability) and
removes the vault entry whenever the vault is reachable — neither removal
short-circuits the other. -/
theorem secret_store_roundtrip (st : SecretStore) (n s : String) :
    retrieveSecret n (storeSecret n s st) = some s
    ∧ retrieveSecret n (deleteSecret n st) = none
    ∧ (deleteSecret n st).fallback n = none
    ∧ (deleteSecret n st).vault n =
        (if st.vaultAvailable then none else st.vault n) := by
  by_cases h : st.vaultAvailable <;>
    simp [retrieveSecret, storeSecret, deleteSecret, mapSet, h]

/-- Witness for C8 at a concrete store in both availability states. -/
theorem secret_store_roundtrip_witness :
    retrieveSecret "work"
        (storeSecret "work" "sk-ant-XYZ"
          { vaultAvailable := true, vault := fun _ => none,
            fallback := fun _ => none }) = some "sk-ant-XYZ"
    ∧ retrieveSecret "work"
        (storeSecret "work" "sk-ant-XYZ"
          { vaultAvailable := false, vault := fun _ => none,
            fallback := fun _ => none }) = some "sk-ant-XYZ"
    ∧ retrieveSecret "work"
        (deleteSecret "work"
          { vaultAvailable := false, vault := fun _ => none,
            fallback := fun n => if n = "work" then some "sk-ant-XYZ" else none }) =
        none := by
  refine ⟨(secret_store_roundtrip _ "work" "sk-ant-XYZ").1,
    (secret_store_roundtrip _ "work" "sk-ant-XYZ").1,
    (secret_store_roundtrip _ "work" "sk-ant-XYZ").2.1⟩

/-- In an association list with pairwise-distinct keys, `find?` on a key
returns exactly the member carrying that key. -/
theorem find?_eq_of_mem_of_nodupKeys {β : Type} {l : List (String × β)}
    (h : (l.map Prod.fst).Nodup) {k : String} {b : β} (hm : (k, b) ∈ l) :
    l.find? (fun p => p.1 == k) = some (k, b) := by
  induction l with
  | nil => cases hm
  | cons a rest ih =>
      rcases List.mem_cons.mp hm with rfl | hm'
      · simp [List.find?]
      · have hk : ¬ (a.1 == k) := by
          simp only [beq_iff_eq]
          intro he
          exact (List.nodup_cons.mp h).1
            (he ▸ List.mem_map_of_mem Prod.fst hm')
        rw [List.find?_cons_of_neg _ (by simpa using hk)]
        exact ih (List.nodup_cons.mp h).2 hm'

/-- The override loop appends exactly the entries whose key is not
`"__proto__"` (those assignments are the inherited-accessor no-op). -/
theorem applyEnvOverrides_eq (env : EnvMap) (l : List (String × String)) :
    applyEnvOverrides env l =
      env ++ (l.filter (fun kv => !(kv.1 == "__proto__"))).map
        (fun kv => (kv.1, some kv.2)) := by
  induction l generalizing env with
  | nil => simp [applyEnvOverrides]
  | cons kv rest ih =>
      by_cases hk : kv.1 = "__proto__"
      · simp [applyEnvOverrides, envAssign, hk, ih]
      · simp [applyEnvOverrides, envAssign, hk, ih]

/-- C3 (amended twice: the stored secret must be non-empty — the code's
`if (secret)` guard treats an empty retrieved secret as absent — and an
`envOverrides` entry keyed `__proto__` is excluded, because the JS
assignment `env["__proto__"] = v` hits the inherited accessor and silently
no-ops): for an api-key profile with no `envOverrides` and a non-empty
stored secret `s`, the composed environment maps `ANTHROPIC_API_KEY` to
`s` and every other auth-mode-selector variable to the unset sentinel; and
for every profile, each `envOverrides` entry whose key is not `__proto__`
(the record's keys are pairwise distinct) is applied last, so it equals
the variable's final value. -/
theorem buildProfileEnv_spec (st : SecretStore) (profile : Profile)
    (profileName : String) :
    (∀ s, profile.authType = .apiKey → profile.envOverrides = none →
      retrieveSecret profileName st = some s → s ≠ "" →
      envGet (buildProfileEnv st profile profileName) "ANTHROPIC_API_KEY" =
          some (some s)
      ∧ ∀ k ∈ CLAUDE_AUTH_ENV_VARS, k ≠ "ANTHROPIC_API_KEY" →
          envGet (buildProfileEnv st profile profileName) k = some none)
    ∧ (∀ k v, ((profile.envOverrides.getD []).map Prod.fst).Nodup →
        (k, v) ∈ profile.envOverrides.getD [] → k ≠ "__proto__" →
        envGet (buildProfileEnv st profile profileName) k = some (some v)) := by
  constructor
  · intro s h1 h2 h3 h4
    constructor
    · simp [buildProfileEnv, applyEnvOverrides, h1, h2, h3, h4, envGet,
        CLAUDE_AUTH_ENV_VARS, List.find?]
    · intro k hk hne
      fin_cases hk <;>
        simp_all [buildProfileEnv, applyEnvOverrides, envGet,
          CLAUDE_AUTH_ENV_VARS, List.find?]
  · intro k v hnd hm hkp
    have hmf : (k, v) ∈
        (profile.envOverrides.getD []).filter (fun kv => !(kv.1 == "__proto__")) :=
      List.mem_filter.mpr ⟨hm, by simpa using hkp⟩
    have hndf : (((profile.envOverrides.getD []).filter
        (fun kv => !(kv.1 == "__proto__"))).map Prod.fst).Nodup :=
      List.Sublist.nodup
        (List.Sublist.map Prod.fst
          (List.filter_sublist (profile.envOverrides.getD []))) hnd
    have hmm : (k, some v) ∈
        (((profile.envOverrides.getD []).filter
            (fun kv => !(kv.1 == "__proto__"))).map
          (fun kv => (kv.1, some kv.2))).reverse := by
      rw [List.mem_reverse]
      exact List.mem_map_of_mem _ hmf
    have hndm : (((((profile.envOverrides.getD []).filter
        (fun kv => !(kv.1 == "__proto__"))).map
          (fun kv => (kv.1, some kv.2))).reverse).map Prod.fst).Nodup := by
      rw [List.map_reverse, List.nodup_reverse, List.map_map]
      simpa using hndf
    have hf := find?_eq_of_mem_of_nodupKeys hndm hmm
    simp [buildProfileEnv, applyEnvOverrides_eq, envGet, List.reverse_append,
      List.find?_append, hf]

/-- Witness for C3 at concrete inputs: the vault-stored secret lands in
`ANTHROPIC_API_KEY`, the bedrock selector carries the unset sentinel, and
an explicit override beats the derived value. -/
theorem buildProfileEnv_spec_witness :
    apiKeyProfile.authType = .apiKey ∧
    retrieveSecret "personal" vaultStore = some "sk-ant-XYZ" ∧
    envGet (buildProfileEnv vaultStore apiKeyProfile "personal")
        "ANTHROPIC_API_KEY" = some (some "sk-ant-XYZ") ∧
    envGet (buildProfileEnv vaultStore apiKeyProfile "personal")
        "CLAUDE_CODE_USE_BEDROCK" = some none ∧
    envGet (buildProfileEnv vaultStore overrideProfile "personal")
        "ANTHROPIC_API_KEY" = some (some "custom-key") := by
  have h1 := (buildProfileEnv_spec vaultStore apiKeyProfile "personal").1
    "sk-ant-XYZ" rfl rfl (by decide) (by decide)
  have h2 := (buildProfileEnv_spec vaultStore overrideProfile "personal").2
    "ANTHROPIC_API_KEY" "custom-key" (by decide) (by decide) (by decide)
  exact ⟨rfl, by decide, h1.1, h1.2 "CLAUDE_CODE_USE_BEDROCK" (by decide)
    (by decide), h2⟩

/-- Counterexample to C3 as stated: with the (falsy) empty string stored as
the secret, the composed environment carries the unset sentinel for
`ANTHROPIC_API_KEY`, not the stored secret; and an `envOverrides` entry
keyed `__proto__` never appears in the composed environment (the JS
assignment hits the inherited accessor and no-ops), so that entry does not
equal its variable's final value. -/
theorem buildProfileEnv_empty_secret_cex :
    retrieveSecret "personal" emptySecretStore = some ""
    ∧ apiKeyProfile.envOverrides = none
    ∧ envGet (buildProfileEnv emptySecretStore apiKeyProfile "personal")
        "ANTHROPIC_API_KEY" = some none
    ∧ some (none : Option String) ≠ some (some "")
    ∧ protoOverrideProfile.envOverrides = some [("__proto__", "x")]
    ∧ envGet (buildProfileEnv emptyStore protoOverrideProfile "work")
        "__proto__" = none
    ∧ (none : Option (Option String)) ≠ some (some "x") := by
  refine ⟨by decide, rfl, by decide, by decide, rfl, by decide, by decide⟩

/-- Counterexample to C6 as stated: `toString` names no profile of the
registry, yet because the guard `config.profiles[name]` is a property read
that also returns inherited `Object.prototype` members, both handlers
resolve `toString` as the profile with the remaining tokens as
passthrough, instead of the active profile with the entire original list
as the claim requires. -/
theorem launch_inherited_name_cex :
    lookupProfile sampleRegistry "toString" = none
    ∧ launchResolve sampleRegistry (some "toString")
        ["toString", "--model", "x"] = ("toString", ["--model", "x"])
    ∧ execResolve sampleRegistry (some "toString")
        ["toString", "--model", "x"] = ("toString", ["--model", "x"])
    ∧ ("toString", ["--model", "x"]) ≠
        (sampleRegistry.activeProfile,
         stripSeparator ["toString", "--model", "x"]) :=
  ⟨rfl, rfl, rfl, by decide⟩

/-- C6 (amended): for both `launch` and `exec`, a non-empty candidate
leading token is treated as the profile — with the remaining tokens as
passthrough — when it exactly matches an existing profile name *or* (a
prototype-chain hazard of the truthy property read) names an inherited
`Object.prototype` member; any other token, and an empty or absent one,
resolves the active profile with the entire original argument list; a
leading `"--"` separator in the passthrough is stripped; and the two
handlers implement the same rule. -/
theorem launch_exec_disambiguation (config : MulticcConfig) (c : String)
    (rest : List String) :
    (c ≠ "" → (lookupProfile config c).isSome →
      launchResolve config (some c) (c :: rest) = (c, stripSeparator rest))
    ∧ (c ≠ "" → OBJECT_PROTOTYPE_MEMBERS.contains c = true →
      launchResolve config (some c) (c :: rest) = (c, stripSeparator rest))
    ∧ (profilesMemberTruthy config c = false →
      launchResolve config (some c) (c :: rest) =
        (config.activeProfile, stripSeparator (c :: rest)))
    ∧ (∀ rawArgs, launchResolve config (some "") rawArgs =
        (config.activeProfile, stripSeparator rawArgs))
    ∧ (∀ rawArgs, launchResolve config none rawArgs =
        (config.activeProfile, stripSeparator rawArgs))
    ∧ (∀ args : List String, stripSeparator ("--" :: args) = args)
    ∧ (∀ a args, a ≠ "--" → stripSeparator (a :: args) = a :: args)
    ∧ (∀ name rawArgs, execResolve config name rawArgs =
        launchResolve config name rawArgs) := by
  refine ⟨fun hc h => ?_, fun hc h => ?_, fun h => ?_,
    fun rawArgs => by simp [launchResolve],
    fun rawArgs => rfl, fun args => by simp [stripSeparator],
    fun a args ha => by simp [stripSeparator, ha], fun name rawArgs => rfl⟩
  · have hg : (!(c == "") && profilesMemberTruthy config c) = true := by
      simp [profilesMemberTruthy, hc, h]
    simp [launchResolve, hg]
  · have hmem : c ∈ OBJECT_PROTOTYPE_MEMBERS := by simpa using h
    have hg : (!(c == "") && profilesMemberTruthy config c) = true := by
      simp [profilesMemberTruthy, hc, hmem]
    simp [launchResolve, hg]
  · simp [launchResolve, h]

/-- Witness for C6 at the spec's example: profiles `{work, personal}` with
raw args `["work", "--model", "x"]` resolve profile `work` with
passthrough `["--model", "x"]`; args `["--model", "x"]` with no matching
token resolve the active profile with the same passthrough. -/
theorem launch_exec_disambiguation_witness :
    launchResolve sampleRegistry (some "work") ["work", "--model", "x"] =
        ("work", ["--model", "x"])
    ∧ launchResolve sampleRegistry (some "--model") ["--model", "x"] =
        ("work", ["--model", "x"])
    ∧ stripSeparator ["--", "npm", "test"] = ["npm", "test"] := by
  have h1 := (launch_exec_disambiguation sampleRegistry "work"
    ["--model", "x"]).1 (by decide) (by decide)
  have h2 := (launch_exec_disambiguation sampleRegistry "--model" ["x"]).2.2.1
    (by decide)
  have h3 := (launch_exec_disambiguation sampleRegistry "work"
    []).2.2.2.2.2.1 ["npm", "test"]
  refine ⟨by simpa [stripSeparator] using h1, ?_, h3⟩
  have : stripSeparator ["--model", "x"] = ["--model", "x"] := by decide
  simpa [this] using h2

theorem lookupProfile_isSome_iff (c : MulticcConfig) (n : String) :
    (lookupProfile c n).isSome ↔ ∃ p, (n, p) ∈ c.profiles := by
  unfold lookupProfile
  simp only [Option.isSome_map', List.find?_isSome]
  constructor
  · rintro ⟨x, hx, he⟩
    obtain ⟨k, p⟩ := x
    simp only [beq_iff_eq] at he
    exact ⟨p, he ▸ hx⟩
  · rintro ⟨p, hp⟩
    exact ⟨(n, p), hp, by simp⟩

theorem handleCreateCore_ok (base : String) (config : MulticcConfig)
    (name : String) (authType : AuthType) (description : Option String)
    (createdAt : String) (cfg' : MulticcConfig)
    (hpre : ActiveRefersExisting config ∨ config.profiles = [])
    (hok : handleCreateCore base config name authType description createdAt =
      .ok cfg') :
    ActiveRefersExisting cfg'
    ∧ (config.profiles = [] → cfg'.activeProfile = name) := by
  unfold handleCreateCore at hok
  split at hok
  · exact absurd hok (by simp)
  split at hok
  · exact absurd hok (by simp)
  rw [Except.ok.injEq] at hok
  subst hok
  constructor
  · rw [ActiveRefersExisting, lookupProfile_isSome_iff]
    dsimp only
    rcases hp : config.profiles with _ | ⟨x, xs⟩
    · simp
    · rw [if_neg (by simp)]
      rcases hpre with h | h
      · rw [ActiveRefersExisting, lookupProfile_isSome_iff] at h
        obtain ⟨p, hm⟩ := h
        rw [hp] at hm
        exact ⟨p, List.mem_append_left _ hm⟩
      · rw [hp] at h
        exact absurd h (by simp)
  · intro h
    dsimp only
    rw [if_pos (by simp [h])]

theorem handleSwitchCore_ok (config : MulticcConfig) (name : String)
    (cfg' : MulticcConfig)
    (hok : handleSwitchCore config name = .ok cfg') :
    cfg'.activeProfile = name ∧ cfg'.profiles = config.profiles
    ∧ ((lookupProfile config name).isSome → ActiveRefersExisting cfg') := by
  unfold handleSwitchCore at hok
  split at hok
  · exact absurd hok (by simp)
  rw [Except.ok.injEq] at hok
  subst hok
  refine ⟨rfl, rfl, fun hs => ?_⟩
  rw [ActiveRefersExisting, lookupProfile_isSome_iff]
  rw [lookupProfile_isSome_iff] at hs
  simpa using hs

theorem handleDeleteCore_ok (config : MulticcConfig) (name : String)
    (cfg' : MulticcConfig)
    (hnd : (config.profiles.map Prod.fst).Nodup)
    (hpre : ActiveRefersExisting config ∨ config.profiles = [])
    (hok : handleDeleteCore config name = .ok cfg') :
    ActiveRefersExisting cfg' := by
  unfold handleDeleteCore at hok
  split at hok
  · exact absurd hok (by simp)
  next hfound =>
  split at hok
  · exact absurd hok (by simp)
  next hlen =>
  rw [Except.ok.injEq] at hok
  subst hok
  rw [ActiveRefersExisting, lookupProfile_isSome_iff]
  by_cases hact : config.activeProfile = name
  · -- the active profile was deleted: the first remaining key is reassigned
    have hne : config.profiles.filter (fun np => !(np.1 == name)) ≠ [] := by
      intro hnil
      have hall : ∀ e ∈ config.profiles, e.1 = name := by
        intro e he
        have := List.filter_eq_nil_iff.mp hnil e he
        simpa using this
      rcases hp : config.profiles with _ | ⟨a, t⟩
      · rw [hp] at hlen; simp at hlen
      · rcases t with _ | ⟨b, t'⟩
        · rw [hp] at hlen; simp at hlen
        · rw [hp] at hnd hall
          have ha : a.1 = name := hall a (by simp)
          have hb : b.1 = name := hall b (by simp)
          have := (List.nodup_cons.mp hnd).1
          exact this (by rw [ha, ← hb]; exact List.mem_map_of_mem Prod.fst (by simp))
    rcases hq : config.profiles.filter (fun np => !(np.1 == name)) with _ | ⟨q, t⟩
    · exact absurd hq hne
    · refine ⟨q.2, ?_⟩
      simp only [hact, if_pos rfl, hq]
      simp [List.headD]
  · -- the active profile survives the deletion
    have hmem : ∃ p, (config.activeProfile, p) ∈ config.profiles := by
      rcases hpre with h | h
      · exact (lookupProfile_isSome_iff config config.activeProfile).mp h
      · rw [h] at hlen; simp at hlen
    obtain ⟨p, hm⟩ := hmem
    refine ⟨p, ?_⟩
    simp only [if_neg hact]
    exact List.mem_filter.mpr ⟨hm, by simpa using hact⟩

/-- Counterexample to C9 as stated: `handleSwitch`'s existence check is the
truthy property read `!config.profiles[name]`, which passes for the
inherited name `toString`; the switch succeeds and persists
`activeProfile = "toString"`, which references no existing key of the
profiles mapping — the claimed invariant is violated by an ordinary
switch on an invariant-satisfying registry. -/
theorem switch_inherited_name_cex :
    lookupProfile sampleRegistry "toString" = none
    ∧ ActiveRefersExisting sampleRegistry
    ∧ handleSwitchCore sampleRegistry "toString" =
        .ok { sampleRegistry with activeProfile := "toString" }
    ∧ ¬ ActiveRefersExisting { sampleRegistry with activeProfile := "toString" } := by
  refine ⟨rfl, by unfold ActiveRefersExisting; decide, rfl, ?_⟩
  unfold ActiveRefersExisting
  decide

/-- C9 (amended): starting from a registry whose `activeProfile` references
an existing key (or from an empty registry), create and delete preserve
the invariant — create on an empty registry sets the new profile active,
delete reassigns `activeProfile` to a remaining key when the active
profile is deleted and refuses to delete the last profile.  Switch
preserves the invariant for every accepted name that is an existing key;
but its existence check is a truthy property read, so it also accepts the
inherited `Object.prototype` member names and then persists an
`activeProfile` referencing no existing key (it rejects exactly the names
whose property read is falsy). -/
theorem profile_ops_preserve_active (base : String) (config : MulticcConfig)
    (name : String) (authType : AuthType) (description : Option String)
    (createdAt : String)
    (hnd : (config.profiles.map Prod.fst).Nodup)
    (hpre : ActiveRefersExisting config ∨ config.profiles = []) :
    (∀ cfg', handleCreateCore base config name authType description createdAt =
        .ok cfg' →
      ActiveRefersExisting cfg' ∧ (config.profiles = [] → cfg'.activeProfile = name))
    ∧ (∀ cfg', handleSwitchCore config name = .ok cfg' →
        cfg'.activeProfile = name ∧ cfg'.profiles = config.profiles
        ∧ ((lookupProfile config name).isSome → ActiveRefersExisting cfg'))
    ∧ (profilesMemberTruthy config name = false →
        handleSwitchCore config name = .error (.notFound name))
    ∧ (∀ cfg', handleDeleteCore config name = .ok cfg' → ActiveRefersExisting cfg')
    ∧ (config.profiles.length ≤ 1 →
        ∀ cfg', handleDeleteCore config name ≠ .ok cfg') := by
  refine ⟨fun cfg' hok =>
      handleCreateCore_ok base config name authType description createdAt cfg'
        hpre hok,
    fun cfg' hok => handleSwitchCore_ok config name cfg' hok,
    fun hn => by simp [handleSwitchCore, hn],
    fun cfg' hok => handleDeleteCore_ok config name cfg' hnd hpre hok,
    fun hlen cfg' hok => ?_⟩
  by_cases hc : profilesMemberTruthy config name
  · simp [handleDeleteCore, hc, hlen] at hok
  · simp [handleDeleteCore, hc] at hok

/-- Witness for C9: deleting the active profile of the concrete two-profile
registry reassigns the remaining key, which exists; switching to the
existing key `personal` preserves the invariant. -/
theorem profile_ops_preserve_active_witness :
    handleDeleteCore sampleRegistry "work" = .ok sampleAfterDelete
    ∧ ActiveRefersExisting sampleAfterDelete
    ∧ handleSwitchCore sampleRegistry "personal" =
        .ok { sampleRegistry with activeProfile := "personal" }
    ∧ ActiveRefersExisting { sampleRegistry with activeProfile := "personal" } := by
  have h := profile_ops_preserve_active "/home/u/.multicc" sampleRegistry
    "work" .oauth none "t" (by decide)
    (Or.inl (by unfold ActiveRefersExisting; decide))
  have h2 := profile_ops_preserve_active "/home/u/.multicc" sampleRegistry
    "personal" .oauth none "t" (by decide)
    (Or.inl (by unfold ActiveRefersExisting; decide))
  have he : handleDeleteCore sampleRegistry "work" = .ok sampleAfterDelete := rfl
  have hs : handleSwitchCore sampleRegistry "personal" =
      .ok { sampleRegistry with activeProfile := "personal" } := rfl
  exact ⟨he, h.2.2.2.1 sampleAfterDelete he,
    hs, (h2.2.1 _ hs).2.2 (by decide)⟩

/-- C10: a name that is empty, longer than 32 characters, or failing
`NAME_PATTERN` makes `handleCreate` report an error (`.error` = non-zero
exit) before any registry is produced for `saveConfig`; a successful
create inserts exactly one profile whose `configDir` is
`getProfileDir base name`; and every name the validator accepts is a
non-empty single path component (no `/`, only `[a-zA-Z0-9-]` characters),
with `getProfileDir` equal to the profiles directory joined with the name,
so no created profile's `configDir` escapes the profiles directory. -/
theorem create_rejects_invalid_names (base : String) (config : MulticcConfig)
    (name : String) (authType : AuthType) (description : Option String)
    (createdAt : String) :
    ((name = "" ∨ 32 < name.length ∨ namePatternTest name = false) →
      ∃ msg, handleCreateCore base config name authType description createdAt =
        .error (.invalidName msg))
    ∧ (∀ cfg', handleCreateCore base config name authType description createdAt =
          .ok cfg' →
        validateProfileName name = none
        ∧ ∃ pr, cfg'.profiles = config.profiles ++ [(name, pr)]
            ∧ pr.configDir = getProfileDir base name)
    ∧ (validateProfileName name = none →
        name ≠ "" ∧ '/' ∉ name.data
        ∧ getProfileDir base name = getProfilesDir base ++ "/" ++ name
        ∧ ∀ ch ∈ name.data, isNameChar ch = true) := by
  refine ⟨fun hbad => ?_, fun cfg' hok => ?_, fun hval => ?_⟩
  · have : ∃ msg, validateProfileName name = some msg := by
      unfold validateProfileName
      rcases hbad with h | h | h
      · exact ⟨_, if_pos (by simp [h])⟩
      · by_cases h0 : name.length = 0
        · exact ⟨_, if_pos h0⟩
        · rw [if_neg h0, if_pos (by simpa [MAX_NAME_LENGTH] using h)]
          exact ⟨_, rfl⟩
      · by_cases h0 : name.length = 0
        · exact ⟨_, if_pos h0⟩
        · by_cases h32 : name.length > MAX_NAME_LENGTH
          · rw [if_neg h0, if_pos h32]; exact ⟨_, rfl⟩
          · rw [if_neg h0, if_neg h32, if_pos (by simp [h])]; exact ⟨_, rfl⟩
    obtain ⟨msg, hmsg⟩ := this
    exact ⟨msg, by simp [handleCreateCore, hmsg]⟩
  · unfold handleCreateCore at hok
    split at hok
    · exact absurd hok (by simp)
    next hv =>
      split at hok
      · exact absurd hok (by simp)
      rw [Except.ok.injEq] at hok
      subst hok
      exact ⟨hv, ⟨_, rfl, rfl⟩⟩
  · unfold validateProfileName at hval
    split_ifs at hval with h0 h32 hpat
    have hp : namePatternTest name = true := by
      cases hq : namePatternTest name
      · rw [hq] at hpat; exact absurd rfl hpat
      · rfl
    have hchars : ∀ ch ∈ name.data, isNameChar ch = true := by
      unfold namePatternTest at hp
      rcases hd : name.data with _ | ⟨c, rest⟩
      · rw [hd] at hp; exact absurd hp (by simp)
      · rw [hd] at hp
        rw [Bool.and_eq_true] at hp
        have hc := hp.1
        have hrest := hp.2
        intro ch hch
        rcases List.mem_cons.mp hch with rfl | hch'
        · simp [isNameChar, hc]
        · exact List.all_eq_true.mp hrest ch hch'
    refine ⟨?_, ?_, ?_, hchars⟩
    · intro he
      exact h0 (by rw [he]; rfl)
    · intro hmem
      have := hchars '/' hmem
      exact absurd this (by decide)
    · refine string_eq_of_data_eq ?_
      simp [getProfileDir, getProfilesDir, data_append]

/-- Witness for C10: the accepted name `work` is a safe single path
component, and a name with a path separator is rejected before any
registry change. -/
theorem create_rejects_invalid_names_witness :
    ("work" : String) ≠ "" ∧ '/' ∉ ("work" : String).data
    ∧ getProfileDir "/home/u/.multicc" "work" =
        getProfilesDir "/home/u/.multicc" ++ "/" ++ "work"
    ∧ ∃ msg, handleCreateCore "/home/u/.multicc" defaultConfig "../evil" .oauth
        none "t" = .error (.invalidName msg) := by
  have h := (create_rejects_invalid_names "/home/u/.multicc" defaultConfig
    "work" .oauth none "t").2.2 (by decide)
  have h2 := (create_rejects_invalid_names "/home/u/.multicc" defaultConfig
    "../evil" .oauth none "t").1 (Or.inr (Or.inr (by decide)))
  exact ⟨h.1, h.2.1, h.2.2.1, h2⟩

/-- Counterexample to C4 as stated: `mixedCredsFile` is valid under the
recognized key `oauthAccount` with a future expiry (now = 1000 < 2000),
yet the resolver reports `authenticated = false` and surfaces no expiry,
because the present-but-invalid `claudeAiOauth` value is selected first
and no further key is tried.  Additionally, at `expiresAt = now` (not "in
the future") the resolver still reports `authenticated = true`. -/
theorem getCredentialStatus_oauth_cex :
    specOAuthValidUnder mixedCredsFile "oauthAccount" = some ⟨"at", "rt", 2000⟩
    ∧ ((1000 : Int) < 2000)
    ∧ getCredentialStatus mixedCredsFS emptyStore 1000 oauthProfile =
        { authenticated := false, authType := .oauth, method := .oauth }
    ∧ getCredentialStatus validCredsFS emptyStore 2000 oauthProfile =
        { authenticated := true, authType := .oauth, expiresAt := some 2000,
          expired := some false, method := .oauth }
    ∧ ¬ ((2000 : Int) < 2000) :=
  ⟨rfl, by decide, rfl, rfl, by decide⟩

theorem readOAuth_eq_specReadOAuth (fs : FS) (d : String) :
    readOAuthCredentials fs d = specReadOAuth fs d := by
  unfold readOAuthCredentials specReadOAuth
  cases hf : fs (d ++ "/.credentials.json") with
  | none => rfl
  | some rf =>
    cases rf with
    | malformed => rfl
    | json j =>
      cases j with
      | null => rfl
      | bool b => rfl
      | num n => rfl
      | str s => rfl
      | obj f =>
          simp only [OAUTH_KEY_CANDIDATES, List.map]
          cases h1 : jLookup f "claudeAiOauth" with
          | none =>
              cases h2 : jLookup f "oauthAccount" with
              | none => simp [firstPresentNonNull]
              | some v => cases v <;> simp [firstPresentNonNull]
          | some v =>
              cases v with
              | null =>
                  cases h2 : jLookup f "oauthAccount" with
                  | none => simp [firstPresentNonNull]
                  | some w => cases w <;> simp [firstPresentNonNull]
              | bool b => simp [firstPresentNonNull]
              | num n => simp [firstPresentNonNull]
              | str s => simp [firstPresentNonNull]
              | obj creds => simp [firstPresentNonNull]

/-- C4 (amended): the resolver reads the credentials file and selects the
first of the keys `claudeAiOauth`, `oauthAccount` whose value is present
and non-null; a missing/unparseable/non-object file, no such candidate, or
a selected candidate lacking the three typed fields yields
`authenticated = false` without error; when the selected candidate is
valid, the expiry is surfaced, `expired = (expiresAt < now)`, and
`authenticated = true` exactly when `now ≤ expiresAt`. -/
theorem getCredentialStatus_oauth_spec (fs : FS) (st : SecretStore) (now : Int)
    (profile : Profile) (h : profile.authType = .oauth) :
    (∀ d, readOAuthCredentials fs d = specReadOAuth fs d)
    ∧ (readOAuthCredentials fs profile.configDir = none →
        getCredentialStatus fs st now profile =
          { authenticated := false, authType := .oauth, method := .oauth })
    ∧ (∀ c, readOAuthCredentials fs profile.configDir = some c →
        getCredentialStatus fs st now profile =
          { authenticated := !(decide (c.expiresAt < now))
            authType := .oauth
            expiresAt := some c.expiresAt
            expired := some (decide (c.expiresAt < now))
            method := .oauth }
        ∧ ((getCredentialStatus fs st now profile).authenticated = true ↔
            now ≤ c.expiresAt)) := by
  refine ⟨fun d => readOAuth_eq_specReadOAuth fs d, fun hn => ?_, fun c hc => ?_⟩
  · simp [getCredentialStatus, h, hn]
  · constructor
    · simp [getCredentialStatus, h, hc]
    · simp [getCredentialStatus, h, hc, not_lt]

/-- Witness for C4 at the spec's own test points: a valid file with expiry
2000 reports expired and unauthenticated at now = 3000, authenticated at
now = 1000, with the expiry surfaced in both. -/
theorem getCredentialStatus_oauth_spec_witness :
    readOAuthCredentials validCredsFS oauthProfile.configDir =
        some ⟨"at", "rt", 2000⟩
    ∧ getCredentialStatus validCredsFS emptyStore 3000 oauthProfile =
        { authenticated := false, authType := .oauth, expiresAt := some 2000,
          expired := some true, method := .oauth }
    ∧ getCredentialStatus validCredsFS emptyStore 1000 oauthProfile =
        { authenticated := true, authType := .oauth, expiresAt := some 2000,
          expired := some false, method := .oauth } := by
  have h1 := (getCredentialStatus_oauth_spec validCredsFS emptyStore 3000
    oauthProfile rfl).2.2 ⟨"at", "rt", 2000⟩ rfl
  have h2 := (getCredentialStatus_oauth_spec validCredsFS emptyStore 1000
    oauthProfile rfl).2.2 ⟨"at", "rt", 2000⟩ rfl
  refine ⟨rfl, ?_, ?_⟩
  · rw [h1.1]; rfl
  · rw [h2.1]; rfl

theorem lastComponentAux_append (l m acc : List Char) :
    lastComponentAux acc (l ++ m) = lastComponentAux (lastComponentAux acc l) m := by
  induction l generalizing acc with
  | nil => rfl
  | cons c rest ih =>
      by_cases hc : c = '/'
      · simp [lastComponentAux, hc, ih]
      · simp [lastComponentAux, hc, ih]

theorem lastComponentAux_no_slash (l acc : List Char) (h : '/' ∉ l) :
    lastComponentAux acc l = acc ++ l := by
  induction l generalizing acc with
  | nil => simp [lastComponentAux]
  | cons c rest ih =>
      have hc : ¬ c = '/' := fun he => h (he ▸ List.mem_cons_self c rest)
      have hr : '/' ∉ rest := fun hm => h (List.mem_cons_of_mem c hm)
      simp [lastComponentAux, hc, ih _ hr]

/-- For a separator-free name, the keyring account derived from the
system-built profile directory is the name itself. -/
theorem lastComponent_getProfileDir (base name : String) (h : '/' ∉ name.data) :
    lastComponent (getProfileDir base name) = name := by
  have hsplit : (getProfileDir base name).data =
      ((base.data ++ ("/profiles" : String).data) ++ ['/']) ++ name.data := by
    show (base ++ "/profiles/" ++ name).data = _
    rw [data_append, data_append]
    have hps : ("/profiles/" : String).data = ("/profiles" : String).data ++ ['/'] := rfl
    rw [hps]
    simp [List.append_assoc]
  unfold lastComponent
  rw [hsplit, lastComponentAux_append, lastComponentAux_append]
  have h1 : ∀ y, lastComponentAux y ['/'] = [] := fun y => by simp [lastComponentAux]
  rw [h1, lastComponentAux_no_slash name.data [] h]
  show String.mk ([] ++ name.data) = name
  cases name
  simp

/-- Counterexample to C5 as stated: the registry associates the key `bar`
with a profile whose hand-edited `configDir` ends in `foo`; the Secret
Store holds a secret for the registry name `bar`, yet the resolver reports
`authenticated = false`, because it keys the lookup by the last path
component of `configDir`, not by the registry name.  Additionally, an
`envOverrides` entry for `ANTHROPIC_API_KEY` whose value is the empty
string is falsy, so the resolver does not report method `env-var`. -/
theorem getCredentialStatus_apikey_cex :
    lookupProfile renamedRegistry "bar" = some renamedDirProfile
    ∧ retrieveSecret "bar" barStore = some "sk-ant-XYZ"
    ∧ renamedDirProfile.envOverrides = none
    ∧ getCredentialStatus (fun _ => none) barStore 0 renamedDirProfile =
        { authenticated := false, authType := .apiKey, method := .apiKey }
    ∧ envOverrideGet emptyOverrideProfile "ANTHROPIC_API_KEY" = some ""
    ∧ getCredentialStatus (fun _ => none) emptyStore 0 emptyOverrideProfile =
        { authenticated := false, authType := .apiKey, method := .apiKey } :=
  ⟨rfl, rfl, rfl, rfl, rfl, rfl⟩

/-- C5 (amended): for an api-key profile, the resolver reports
`authenticated = true` with method `env-var` when the profile has a
non-empty (truthy) `envOverrides` entry for `ANTHROPIC_API_KEY`; otherwise
the method is `api-key` and `authenticated = true` exactly when the Secret
Store yields a truthy secret keyed by the last `"/"`-separated component
of the profile's `configDir` — which equals the registry name for every
profile whose `configDir` the system derived via `getProfileDir`. -/
theorem getCredentialStatus_apikey_spec (fs : FS) (st : SecretStore) (now : Int)
    (profile : Profile) (h : profile.authType = .apiKey) :
    (truthy (envOverrideGet profile "ANTHROPIC_API_KEY") = true →
      getCredentialStatus fs st now profile =
        { authenticated := true, authType := .apiKey, method := .envVar })
    ∧ (truthy (envOverrideGet profile "ANTHROPIC_API_KEY") = false →
        (getCredentialStatus fs st now profile).method = .apiKey
        ∧ ((getCredentialStatus fs st now profile).authenticated = true ↔
            truthy (retrieveSecret (lastComponent profile.configDir) st) = true))
    ∧ (∀ base name, '/' ∉ name.data →
        lastComponent (getProfileDir base name) = name) := by
  refine ⟨fun ht => by simp [getCredentialStatus, h, ht], fun hf => ?_,
    fun base name hn => lastComponent_getProfileDir base name hn⟩
  by_cases hs : truthy (retrieveSecret (lastComponent profile.configDir) st) = true
  · constructor <;> simp [getCredentialStatus, h, hf, hs]
  · have hs' : truthy (retrieveSecret (lastComponent profile.configDir) st) = false :=
      Bool.eq_false_iff.mpr hs
    constructor <;> simp [getCredentialStatus, h, hf, hs']

/-- Witness for C5: with the secret stored under the key derived from the
system-built `configDir`, the resolver authenticates with method
`api-key`; a truthy override authenticates with method `env-var`. -/
theorem getCredentialStatus_apikey_spec_witness :
    (getCredentialStatus (fun _ => none) vaultStore 0 apiKeyProfile).authenticated = true
    ∧ (getCredentialStatus (fun _ => none) vaultStore 0 apiKeyProfile).method = .apiKey
    ∧ getCredentialStatus (fun _ => none) emptyStore 0 overrideProfile =
        { authenticated := true, authType := .apiKey, method := .envVar }
    ∧ lastComponent (getProfileDir "/home/u/.multicc" "personal") = "personal" := by
  have h1 := (getCredentialStatus_apikey_spec (fun _ => none) vaultStore 0
    apiKeyProfile rfl).2.1 (by decide)
  have h2 := (getCredentialStatus_apikey_spec (fun _ => none) emptyStore 0
    overrideProfile rfl).1 (by decide)
  have h3 := (getCredentialStatus_apikey_spec (fun _ => none) emptyStore 0
    apiKeyProfile rfl).2.2 "/home/u/.multicc" "personal" (by decide)
  exact ⟨h1.2.mpr (by decide), h1.1, h2, h3⟩

end Multicc
